import Mathlib

/-!
Verification of the gostratum/dbx migration subsystem.

This file shallowly embeds the migration runner of the repository:
the functional-option configuration (`migrate/config.go`), the public
operation facade (`migrate` package: `Up`, `Down`, `Steps`, `To`, `Force`,
`Drop`, `GetStatus`), the internal runner layer
(`migrate/internal/runner.go`, `runner_embed.go`), the simple SQL
migration runner of package `dbx` (`migrate.go`), and — modelled from the
specification, since the third-party golang-migrate engine is delegated to
and not part of the sources — the version-marker state machine the runner
drives.  Machine integers are modelled as `Nat`/`Int`; Go `error` values
are modelled by an inductive of error classes (wrapping with `fmt.Errorf`
and `%w` preserves the class for `errors.Is`, so a wrapped error is
identified with its base class).
-/

namespace Dbx

/-- Error classes of the migrate package.  `errors.Is` identifies a wrapped
error with its base sentinel, so `WrapError`/`fmt.Errorf("%w")` layers are
not represented: a value of this type is the base class of the Go error.
Constructors mirror the sentinels of the repository and of golang-migrate:
`noChange` is `migrate.ErrNoChange`, `dirtyState v` is the engine's
dirty-database error carrying the marker version, `invalidConfig` is
`ErrInvalidConfig`, `noMigrationSource` is `ErrNoMigrationSource`,
`dbURLRequired` is `ErrDatabaseURLRequired` and the internal runner's
"database URL is required", `sourceURLRequired` is the internal runner's
"source URL is required", `sourceNotFound` is the missing-directory error
of `newFileSourceURL`. -/
inductive MigErr where
  | noChange
  | dirtyState (version : Nat)
  | invalidConfig (msg : String)
  | noMigrationSource
  | dbURLRequired
  | sourceURLRequired
  | sourceNotFound (dir : String)
  deriving Repr, DecidableEq

/-- `IsNoChange` from the errors file: `errors.Is(err, ErrNoChange)`.
`none` models a nil Go error, for which `errors.Is` is false. -/
def IsNoChange : Option MigErr → Bool
  | some .noChange => true
  | _ => false

/-- Classification used by `errors.Is(err, ErrInvalidConfig)`. -/
def isInvalidConfig : MigErr → Bool
  | .invalidConfig _ => true
  | _ => false

/-- `migrate.Config` (migrate/config.go).  `lockTimeout` is a
`time.Duration` in nanoseconds (`Int`).  `embedFSId` models the `EmbedFS`
field: `none` stands for an `embed.FS` whose root has no entries (the zero
value, or an empty custom FS), for which `createRunner` falls back to the
default bundle; `some f` is a non-empty custom filesystem identified by
`f`. -/
structure Config where
  autoMigrate : Bool
  dir : String
  useEmbed : Bool
  table : String
  lockTimeout : Int
  verbose : Bool
  embedFSId : Option String
  embedSubdir : String
  deriving Repr, DecidableEq

/-- Nanoseconds in a second, for `time.Duration` values. -/
def nsPerSecond : Int := 1000000000

/-- `DefaultConfig` (migrate/config.go). -/
def defaultConfig : Config :=
  { autoMigrate := false
    dir := ""
    useEmbed := false
    table := "schema_migrations"
    lockTimeout := 15 * nsPerSecond
    verbose := false
    embedFSId := none
    embedSubdir := "" }

/-- The functional options of migrate/config.go and embed.go. -/
inductive MOpt where
  | withDir (dir : String)
  | withEmbed
  | withTable (name : String)
  | withLockTimeout (d : Int)
  | withVerbose
  | withAutoMigrate
  | withEmbeddedFS (fsid : Option String) (subdir : String)
  deriving Repr, DecidableEq

/-- Application of one functional option to a config. -/
def applyOpt (c : Config) : MOpt → Config
  | .withDir d => { c with dir := d, useEmbed := false }
  | .withEmbed => { c with useEmbed := true, dir := "" }
  | .withTable n => { c with table := n }
  | .withLockTimeout d => { c with lockTimeout := d }
  | .withVerbose => { c with verbose := true }
  | .withAutoMigrate => { c with autoMigrate := true }
  | .withEmbeddedFS f s => { c with useEmbed := true, dir := "", embedFSId := f, embedSubdir := s }

/-- `Config.Apply`: left-to-right application of the option list. -/
def applyOpts (c : Config) (opts : List MOpt) : Config :=
  opts.foldl applyOpt c

/-- `Config.Validate` (migrate/config.go).  Returns the error class of the
first failing check, `none` when the configuration is valid.  The check
order is that of the source: both-sources, then auto-migrate without
source, then empty table, then negative lock timeout. -/
def Config.validate (c : Config) : Option MigErr :=
  if c.dir ≠ "" ∧ c.useEmbed then
    some (.invalidConfig "cannot specify both Dir and UseEmbed")
  else if c.dir = "" ∧ c.useEmbed = false ∧ c.autoMigrate then
    some .noMigrationSource
  else if c.table = "" then
    some (.invalidConfig "table name cannot be empty")
  else if c.lockTimeout < 0 then
    some (.invalidConfig "lock_timeout cannot be negative")
  else
    none

/-- Go string slicing `s[i:]`.  Go indexes bytes of the UTF-8 encoding and
panics (`slice bounds out of range`) when `i > len(s)`; the panic is
`Except.error ()`.  The retained content is the character-level drop,
which agrees with the byte-level slice on ASCII input (all inputs the
repository produces). -/
def goSliceFrom (s : String) (i : Nat) : Except Unit String :=
  if i ≤ s.utf8ByteSize then .ok (s.drop i) else .error ()

/-- The migration-source branch of `NewConfig` (migrate/config.go, unified
configuration path): `source == "embed://"` selects the embedded source;
any other non-empty source is sliced with `source[7:]` to strip a
`file://` scheme (the subsequent `if cfg.Dir == source` statement in the
source is a no-op and is not represented).  The slice panics when the
source is shorter than 7 bytes. -/
def newConfigSource (source : String) (cfg : Config) : Except Unit Config :=
  if source = "embed://" then
    .ok { cfg with useEmbed := true, dir := "" }
  else if source ≠ "" then
    match goSliceFrom source 7 with
    | .error _ => .error ()
    | .ok d => .ok { cfg with useEmbed := false, dir := d }
  else
    .ok cfg

/-- The version marker: the single persisted row `(version, dirty)` of the
marker table. -/
structure Marker where
  version : Nat
  dirty : Bool
  deriving Repr, DecidableEq

/-- Largest element of a list of versions, `0` for the empty list. -/
def maxVersion (l : List Nat) : Nat := l.foldl max 0

/-- Modelled from the spec: the golang-migrate engine the internal runner
delegates to is a third-party library absent from the sources; the spec
(§4.3 Migration Executor) treats its protocol as the core's own
responsibility.  `engineUp` is apply-all: read the marker; a dirty marker
refuses the operation with the dirty-state error; the delta is all step
versions above the current version; an empty delta is the distinguished
no-change result; otherwise the steps are applied in ascending order and
the marker ends at the highest applied version, clean.  The result pairs
the final marker with the error class (`none` for success). -/
def engineUp (steps : List Nat) (m : Marker) : Marker × Option MigErr :=
  if m.dirty then (m, some (.dirtyState m.version))
  else
    let delta := steps.filter (fun v => m.version < v)
    if delta.isEmpty then (m, some .noChange)
    else ({ version := maxVersion delta, dirty := false }, none)

/-- Modelled from the spec: revert-one (§4.3) — a dirty marker refuses the
operation; otherwise the most recent applied step is reverted and the
marker moves to the previous applied version (0 when none remains); with
nothing applied the result is the no-change error. -/
def engineDown (steps : List Nat) (m : Marker) : Marker × Option MigErr :=
  if m.dirty then (m, some (.dirtyState m.version))
  else
    let applied := steps.filter (fun v => 0 < v ∧ v ≤ m.version)
    if applied.isEmpty then (m, some .noChange)
    else
      let top := maxVersion applied
      ({ version := maxVersion (applied.filter (fun v => v < top)), dirty := false }, none)

/-- Modelled from the spec: apply-n / revert-n steps (§4.3) — a dirty
marker refuses the operation; `n > 0` applies the first `n` pending steps
ascending, `n < 0` reverts the last `|n|` applied steps descending, an
empty delta (including `n = 0`) is the no-change error. -/
def engineSteps (steps : List Nat) (n : Int) (m : Marker) : Marker × Option MigErr :=
  if m.dirty then (m, some (.dirtyState m.version))
  else if 0 < n then
    let pending := (steps.filter (fun v => m.version < v)).insertionSort (· ≤ ·)
    let chosen := pending.take n.toNat
    if chosen.isEmpty then (m, some .noChange)
    else ({ version := maxVersion chosen, dirty := false }, none)
  else if n < 0 then
    let applied := (steps.filter (fun v => 0 < v ∧ v ≤ m.version)).insertionSort (· ≤ ·)
    if applied.isEmpty then (m, some .noChange)
    else
      let keep := applied.take (applied.length - (-n).toNat)
      ({ version := maxVersion keep, dirty := false }, none)
  else (m, some .noChange)

/-- Modelled from the spec: go-to-version (§4.3) — a dirty marker refuses
the operation; `v` equal to the current version (or an empty delta) is the
no-change result; a higher `v` applies the steps in `(current, v]`, a
lower `v` reverts the steps in `(v, current]` leaving the marker at the
highest remaining applied version. -/
def engineTo (steps : List Nat) (v : Nat) (m : Marker) : Marker × Option MigErr :=
  if m.dirty then (m, some (.dirtyState m.version))
  else if v = m.version then (m, some .noChange)
  else if m.version < v then
    let delta := steps.filter (fun s => m.version < s ∧ s ≤ v)
    if delta.isEmpty then (m, some .noChange)
    else ({ version := maxVersion delta, dirty := false }, none)
  else
    let delta := steps.filter (fun s => v < s ∧ s ≤ m.version)
    if delta.isEmpty then (m, some .noChange)
    else ({ version := maxVersion (steps.filter (fun s => 0 < s ∧ s ≤ v)), dirty := false }, none)

/-- Modelled from the spec: `force(version)` (§4.3) bypasses delta
computation and the dirty check entirely and sets the marker to the given
version, clean. -/
def engineForce (v : Nat) (_m : Marker) : Marker × Option MigErr :=
  ({ version := v, dirty := false }, none)

/-- Modelled from the spec: `drop()` (§4.3) destroys all migration-managed
objects including the marker table; a subsequent read of the marker sees
the absent-table default `{0, false}`. -/
def engineDrop (_m : Marker) : Marker × Option MigErr :=
  ({ version := 0, dirty := false }, none)

/-- Source descriptor held by a migrate instance: a source URL
(`migrate.New`) or an iofs driver over an embedded bundle
(`migrate.NewWithInstance`). -/
inductive SourceSpec where
  | url (s : String)
  | iofs (fsid : String) (subdir : String)
  deriving Repr, DecidableEq

/-- The data of a constructed `migrate.Migrate` instance that the
operations consult: the source of steps, the database, the marker table
the database driver uses, and the verbose-logger flag.  `NewRunner`
(URL form) leaves the driver's marker table at the library default;
`NewRunnerWithEmbed` forwards `config.Table` via `postgres.WithInstance`. -/
structure MigrateInstance where
  source : SourceSpec
  dbURL : String
  table : String
  verbose : Bool
  deriving Repr, DecidableEq

/-- `RunnerConfig` (migrate/internal/runner.go): `lockTimeoutSec` is the
`LockTimeout int` field in seconds. -/
structure RunnerConfig where
  table : String
  lockTimeoutSec : Int
  verbose : Bool
  deriving Repr, DecidableEq

/-- Marker table name the golang-migrate postgres driver uses when no
table is forwarded to it (URL-form construction without a
`x-migrations-table` parameter). -/
def libDefaultTable : String := "schema_migrations"

/-- `NewRunner` (migrate/internal/runner.go): rejects an empty database
URL, then an empty source URL, then builds the migrate instance from the
two URLs.  Neither `config.Table` nor `config.LockTimeout` is forwarded to
the instance; only `config.Verbose` selects the logger. -/
def NewRunner (dbURL sourceURL : String) (cfg : RunnerConfig) : Except MigErr MigrateInstance :=
  if dbURL = "" then .error .dbURLRequired
  else if sourceURL = "" then .error .sourceURLRequired
  else .ok { source := .url sourceURL, dbURL := dbURL, table := libDefaultTable, verbose := cfg.verbose }

/-- `NewRunnerWithEmbed` (migrate/internal/runner_embed.go): rejects an
empty database URL, then builds an iofs-sourced instance whose postgres
driver is given `config.Table` as the marker table.  `config.LockTimeout`
is not forwarded. -/
def NewRunnerWithEmbed (dbURL : String) (fsid : String) (subdir : String)
    (cfg : RunnerConfig) : Except MigErr MigrateInstance :=
  if dbURL = "" then .error .dbURLRequired
  else .ok { source := .iofs fsid subdir, dbURL := dbURL, table := cfg.table, verbose := cfg.verbose }

/-- The environment a runner operates in: which directories exist on the
filesystem, the step versions each source resolves to, and the marker each
marker-table name holds (the absent-table state is the default marker
`{0, false}`, matching the lazy-initialization read). -/
structure World where
  dirExists : String → Bool
  resolve : SourceSpec → List Nat
  markers : String → Marker

/-- The facade operations, one constructor per public entry point. -/
inductive OpKind where
  | up
  | down
  | steps (n : Int)
  | to (v : Nat)
  | force (v : Nat)
  | drop
  deriving Repr, DecidableEq

/-- The `err == migrate.ErrNoChange` translation each of `Runner.Up`,
`Runner.Down`, `Runner.Steps`, `Runner.To` performs: the engine's
no-change error becomes a nil error; every other outcome passes through
(wrapped, which preserves the class). -/
def swallowNoChange : Marker × Option MigErr → Marker × Option MigErr
  | (m, some .noChange) => (m, none)
  | r => r

/-- The runner method for each operation (migrate/internal/runner.go),
acting on the engine: `Up`/`Down`/`Steps`/`To` swallow the no-change
error; `Force` and `Drop` pass the engine result through. -/
def runnerOp (k : OpKind) (steps : List Nat) (m : Marker) : Marker × Option MigErr :=
  match k with
  | .up => swallowNoChange (engineUp steps m)
  | .down => swallowNoChange (engineDown steps m)
  | .steps n => swallowNoChange (engineSteps steps n m)
  | .to v => swallowNoChange (engineTo steps v m)
  | .force v => engineForce v m
  | .drop => engineDrop m

/-- Run a runner method against the world: the steps come from the
instance's source and the marker from the instance's table; only that
table's marker is updated. -/
def runRunnerOp (k : OpKind) (inst : MigrateInstance) (w : World) : World × Option MigErr :=
  let r := runnerOp k (w.resolve inst.source) (w.markers inst.table)
  ({ w with markers := fun t => if t = inst.table then r.1 else w.markers t }, r.2)

/-- Modelled from the spec: `newFileSourceURL` is referenced by
`createRunner` and by the source-validation test but its definition is not
among the provided sources.  Per the spec (§4.1, §6) it turns a directory
path into a `file://` source URL and fails when the path does not exist
(the test asserts the error mentions a missing directory and that the
produced URL contains `file://`). -/
def newFileSourceURL (dir : String) (w : World) : Except MigErr String :=
  if w.dirExists dir then .ok ("file://" ++ dir) else .error (.sourceNotFound dir)

/-- `createRunner` (migrate facade): builds the runner configuration from
the validated config, then dispatches on the source kind.  The embedded
path falls back to the default bundle rooted at `files` when the custom
embedded filesystem has no entries; the filesystem path resolves the
directory to a `file://` URL first; no source at all is
`ErrNoMigrationSource`. -/
def createRunner (dbURL : String) (cfg : Config) (w : World) : Except MigErr MigrateInstance :=
  let rcfg : RunnerConfig :=
    { table := cfg.table, lockTimeoutSec := cfg.lockTimeout / nsPerSecond, verbose := cfg.verbose }
  if cfg.useEmbed then
    match cfg.embedFSId with
    | some fsid => NewRunnerWithEmbed dbURL fsid cfg.embedSubdir rcfg
    | none => NewRunnerWithEmbed dbURL "EmbeddedMigrations" "files" rcfg
  else if cfg.dir ≠ "" then
    match newFileSourceURL cfg.dir w with
    | .error e => .error e
    | .ok sourceURL => NewRunner dbURL sourceURL rcfg
  else .error .noMigrationSource

/-- Observable interactions of one facade call: connecting to the database
(runner construction), running the operation, and closing the runner
(which releases the connection and the advisory lock). -/
inductive Event where
  | dbConnect
  | opRun
  | close
  deriving Repr, DecidableEq

/-- One facade operation (`Up`, `Down`, `Steps`, `To`, `Force`, `Drop` of
the migrate facade) over an explicit config: validate first and return the
validation error before any database interaction; then create the runner
(a failure there happens before any operation runs); once the runner
exists, run the operation and — as the deferred `runner.Close()` does on
both the error return and the success return — close it on either exit
path.  The result is the returned error class, the final world, and the
interaction trace. -/
def facadeOpCfg (k : OpKind) (dbURL : String) (cfg : Config) (w : World) :
    Option MigErr × World × List Event :=
  match cfg.validate with
  | some e => (some e, w, [])
  | none =>
    match createRunner dbURL cfg w with
    | .error e => (some e, w, [])
    | .ok inst =>
      let r := runRunnerOp k inst w
      match r.2 with
      | some e => (some e, r.1, [.dbConnect, .opRun, .close])
      | none => (none, r.1, [.dbConnect, .opRun, .close])

/-- A public facade operation: default config, option application, then
the common body. -/
def facadeOp (k : OpKind) (dbURL : String) (opts : List MOpt) (w : World) :
    Option MigErr × World × List Event :=
  facadeOpCfg k dbURL (applyOpts defaultConfig opts) w

/-- The `Status` value of the migrate facade and of the internal status
reporter. -/
structure StatusRec where
  dbURL : String
  current : Nat
  dirty : Bool
  applied : List Nat
  pending : List Nat
  deriving Repr, DecidableEq

/-- `internal.GetStatus` (migrate/internal, status portion of the runner
sources): it first constructs a runner with `NewRunner(dbURL, sourceURL,
...)` — so it inherits that constructor's rejection of an empty database
URL or an empty source URL — then reads the version and dirty flag through
the instance (treating a read failure as `{0, false}`), fills `Applied`
from the rows of the named marker table whose dirty flag is false, and
leaves `Pending` at the empty list it was initialized with: no code path
ever populates it. -/
def internalGetStatus (dbURL sourceURL tableName : String) (w : World) :
    Except MigErr StatusRec :=
  match NewRunner dbURL sourceURL { table := tableName, lockTimeoutSec := 0, verbose := false } with
  | .error e => .error e
  | .ok inst =>
    let m := w.markers inst.table
    let row := w.markers tableName
    .ok { dbURL := dbURL, current := m.version, dirty := m.dirty
          applied := if row.dirty then [] else [row.version]
          pending := [] }

/-- `getStatusWithoutSource` (migrate facade): delegates to
`internal.GetStatus` with an empty source URL and repackages the result. -/
def getStatusWithoutSource (dbURL tableName : String) (w : World) : Except MigErr StatusRec :=
  match internalGetStatus dbURL "" tableName w with
  | .error e => .error e
  | .ok st =>
    .ok { dbURL := st.dbURL, current := st.current, dirty := st.dirty
          applied := st.applied, pending := st.pending }

/-- `GetStatus` (migrate facade): applies the options without validating
the source; an empty database URL is `ErrDatabaseURLRequired`; with no
source configured it takes the lenient `getStatusWithoutSource` path;
otherwise it creates a runner, reads the version through it (a failure
reads as `{0, false}` — the total marker map makes the read always
succeed), and calls `internal.GetStatus` with an empty source URL
(verbatim from the source: the second argument is `""`). -/
def GetStatus (dbURL : String) (opts : List MOpt) (w : World) : Except MigErr StatusRec :=
  let cfg := applyOpts defaultConfig opts
  if dbURL = "" then .error .dbURLRequired
  else if cfg.dir = "" ∧ cfg.useEmbed = false then
    getStatusWithoutSource dbURL cfg.table w
  else
    match createRunner dbURL cfg w with
    | .error e => .error e
    | .ok inst =>
      let m := w.markers inst.table
      match internalGetStatus dbURL "" cfg.table w with
      | .error e => .error e
      | .ok st =>
        .ok { dbURL := dbURL, current := m.version, dirty := m.dirty
              applied := st.applied, pending := st.pending }

/-- One entry seen by the `fs.WalkDir` callback of
`MigrationRunner.getMigrationFiles` (migrate.go, package dbx): the path
and whether it is a directory. -/
structure WalkEntry where
  path : String
  isDir : Bool
  deriving Repr, DecidableEq

/-- Byte-wise `≤` on strings as Go's `sort.Strings` compares them, on the
character lists (identical to byte order for ASCII paths). -/
def charsLe : List Char → List Char → Bool
  | [], _ => true
  | _ :: _, [] => false
  | a :: as, b :: bs =>
    if a.toNat < b.toNat then true
    else if b.toNat < a.toNat then false
    else charsLe as bs

/-- String comparison used by the sort. -/
def strLe (a b : String) : Bool := charsLe a.data b.data

/-- Ascending lexical sort, the effect of `sort.Strings`. -/
def sortStrings (l : List String) : List String :=
  l.insertionSort (fun a b => strLe a b = true)

/-- Test of `strings.HasSuffix(strings.ToLower(path), ".sql")`, computed
on the character list: the ASCII-lowercased path ends with `.sql`. -/
def isSqlFile (path : String) : Bool :=
  decide (((path.data.map Char.toLower).reverse.take 4) = ['l', 'q', 's', '.'])

/-- `MigrationRunner.getMigrationFiles` (migrate.go, package dbx): walk
the tree collecting the paths of non-directory entries whose lowercased
path ends in `.sql`, then `sort.Strings` the collected paths — a lexical
string sort of the full path. -/
def getMigrationFiles (entries : List WalkEntry) : List String :=
  sortStrings ((entries.filter
    (fun e => !e.isDir && isSqlFile e.path)).map (fun e => e.path))

/-- Characters of the base name: the run after the last path separator. -/
def baseNameChars (path : String) : List Char :=
  (path.data.reverse.takeWhile (fun c => c ≠ '/')).reverse

/-- Decimal value of a digit run. -/
def digitsToNat (cs : List Char) : Nat :=
  cs.foldl (fun n c => n * 10 + (c.toNat - 48)) 0

/-- Leading digit run of a file's base name, parsed as the version number
(`none` when the name does not start with a digit).  This is the sort key
the spec prescribes (§4.1: sort key is the parsed version integer). -/
def leadingVersionOf (path : String) : Option Nat :=
  let ds := (baseNameChars path).takeWhile Char.isDigit
  if ds.isEmpty then none else some (digitsToNat ds)

/-- Comparison by parsed version number (spec order). -/
def byVersionLe (a b : String) : Bool :=
  (leadingVersionOf a).getD 0 ≤ (leadingVersionOf b).getD 0

/-- The ordering the spec prescribes for resolved migration files:
ascending parsed version number.  Stated from the spec's words, to be
compared against `getMigrationFiles`. -/
def specVersionOrder (l : List String) : List String :=
  l.insertionSort (fun a b => byVersionLe a b = true)

/-! Concrete environments used to evaluate the model. -/

/-- A world with an empty marker everywhere and two resolved steps. -/
def wBase : World :=
  { dirExists := fun _ => true
    resolve := fun _ => [1, 2]
    markers := fun _ => { version := 0, dirty := false } }

/-- A world whose marker is dirty at version 3. -/
def wDirty : World :=
  { dirExists := fun _ => true
    resolve := fun _ => [1, 2]
    markers := fun _ => { version := 3, dirty := true } }

/-- A world whose marker is clean at version 3. -/
def wThree : World :=
  { dirExists := fun _ => true
    resolve := fun _ => [1, 2]
    markers := fun _ => { version := 3, dirty := false } }

/-- The instance `createRunner` builds for the default embedded source. -/
def instEmbed : MigrateInstance :=
  { source := .iofs "EmbeddedMigrations" "files"
    dbURL := "postgres://db"
    table := "schema_migrations"
    verbose := false }

/-! Helper lemmas. -/

theorem init_le_foldl_max (bs : List Nat) (init : Nat) : init ≤ bs.foldl max init := by
  induction bs generalizing init with
  | nil => exact le_refl init
  | cons b cs ih => exact le_trans (le_max_left init b) (ih (max init b))

theorem maxVersion_le (l : List Nat) (x : Nat) (hx : x ∈ l) : x ≤ maxVersion l := by
  unfold maxVersion
  have key : ∀ (bs : List Nat) (init : Nat), x ∈ bs → x ≤ bs.foldl max init := by
    intro bs
    induction bs with
    | nil => intro init h; cases h
    | cons b cs ih =>
      intro init h
      rcases List.mem_cons.mp h with rfl | hmem
      · exact le_trans (le_max_right init x) (init_le_foldl_max cs (max init x))
      · exact ih (max init b) hmem
  exact key l 0 hx

theorem maxVersion_mem (l : List Nat) (hne : l ≠ []) : maxVersion l ∈ l := by
  have key : ∀ (bs : List Nat) (init : Nat), bs.foldl max init = init ∨ bs.foldl max init ∈ bs := by
    intro bs
    induction bs with
    | nil => intro init; exact Or.inl rfl
    | cons b cs ih =>
      intro init
      rcases ih (max init b) with h | h
      · rcases max_choice init b with hm | hm
        · exact Or.inl (by rw [List.foldl_cons, h, hm])
        · exact Or.inr (by rw [List.foldl_cons, h, hm]; exact List.mem_cons_self b cs)
      · exact Or.inr (List.mem_cons_of_mem b h)
  rcases key l 0 with h | h
  · cases l with
    | nil => exact absurd rfl hne
    | cons a as =>
      have ha : a ≤ maxVersion (a :: as) := maxVersion_le _ a (List.mem_cons_self a as)
      have hz : maxVersion (a :: as) = 0 := h
      have haz : a = 0 := Nat.le_zero.mp (hz ▸ ha)
      show (a :: as).foldl max 0 ∈ a :: as
      rw [h, ← haz]
      exact List.mem_cons_self a as
  · exact h

theorem charsLe_total (a b : List Char) : charsLe a b = true ∨ charsLe b a = true := by
  induction a generalizing b with
  | nil => exact Or.inl rfl
  | cons x xs ih =>
    cases b with
    | nil => exact Or.inr rfl
    | cons y ys =>
      by_cases h1 : x.toNat < y.toNat
      · exact Or.inl (by simp [charsLe, h1])
      · by_cases h2 : y.toNat < x.toNat
        · exact Or.inr (by simp [charsLe, h2])
        · rcases ih ys with h | h
          · exact Or.inl (by simp [charsLe, h1, h2, h])
          · exact Or.inr (by simp [charsLe, h1, h2, h])

theorem charsLe_trans (a b c : List Char) (hab : charsLe a b = true)
    (hbc : charsLe b c = true) : charsLe a c = true := by
  induction a generalizing b c with
  | nil => rfl
  | cons x xs ih =>
    cases b with
    | nil => simp [charsLe] at hab
    | cons y ys =>
      cases c with
      | nil => simp [charsLe] at hbc
      | cons z zs =>
        simp only [charsLe] at hab hbc ⊢
        by_cases hxy : x.toNat < y.toNat
        · by_cases hyz : y.toNat < z.toNat
          · simp [show x.toNat < z.toNat from lt_trans hxy hyz]
          · by_cases hzy : z.toNat < y.toNat
            · simp [hyz, hzy] at hbc
            · have : y.toNat = z.toNat := le_antisymm (le_of_not_lt hzy) (le_of_not_lt hyz)
              simp [show x.toNat < z.toNat from this ▸ hxy]
        · by_cases hyx : y.toNat < x.toNat
          · simp [hxy, hyx] at hab
          · have hxyeq : x.toNat = y.toNat := le_antisymm (le_of_not_lt hyx) (le_of_not_lt hxy)
            by_cases hyz : y.toNat < z.toNat
            · simp [show x.toNat < z.toNat from hxyeq ▸ hyz]
            · by_cases hzy : z.toNat < y.toNat
              · simp [hyz, hzy] at hbc
              · have hyzeq : y.toNat = z.toNat := le_antisymm (le_of_not_lt hzy) (le_of_not_lt hyz)
                simp only [hxy, hyx, if_neg, ite_false] at hab
                simp only [hyz, hzy, if_neg, ite_false] at hbc
                have hxz : ¬ x.toNat < z.toNat := by omega
                have hzx : ¬ z.toNat < x.toNat := by omega
                simp [hxz, hzx, ih ys zs hab hbc]

theorem strLe_total (a b : String) : (strLe a b || strLe b a) = true := by
  rcases charsLe_total a.data b.data with h | h
  · simp [strLe, h]
  · simp [strLe, h]

theorem strLe_trans (a b c : String) (hab : strLe a b = true) (hbc : strLe b c = true) :
    strLe a c = true :=
  charsLe_trans a.data b.data c.data hab hbc

theorem validate_of_bad (c : Config)
    (h : (c.dir ≠ "" ∧ c.useEmbed = true) ∨ c.table = "" ∨ c.lockTimeout < 0) :
    ∃ e, c.validate = some e ∧ (isInvalidConfig e = true ∨ e = .noMigrationSource) ∧
      (e = .noMigrationSource → c.autoMigrate = true ∧ c.dir = "" ∧ c.useEmbed = false) := by
  unfold Config.validate
  split_ifs with h1 h2 h3 h4
  · exact ⟨_, rfl, Or.inl rfl, fun hc => by cases hc⟩
  · exact ⟨_, rfl, Or.inr rfl, fun _ => ⟨h2.2.2, h2.1, h2.2.1⟩⟩
  · exact ⟨_, rfl, Or.inl rfl, fun hc => by cases hc⟩
  · exact ⟨_, rfl, Or.inl rfl, fun hc => by cases hc⟩
  · exfalso
    rcases h with ⟨hd, he⟩ | ht | hl
    · exact h1 ⟨hd, by simp [he]⟩
    · exact h3 ht
    · exact h4 hl

theorem createRunner_markers_irrel (dbURL : String) (cfg : Config) (w : World)
    (f : String → Marker) :
    createRunner dbURL cfg { w with markers := f } = createRunner dbURL cfg w := rfl

theorem engineUp_fixed (steps : List Nat) (m : Marker)
    (h : (swallowNoChange (engineUp steps m)).2 = none) :
    swallowNoChange (engineUp steps ((swallowNoChange (engineUp steps m)).1)) =
      ((swallowNoChange (engineUp steps m)).1, none) := by
  by_cases hd : m.dirty
  · simp [engineUp, hd, swallowNoChange] at h
  · by_cases he : (steps.filter (fun v => m.version < v)).isEmpty
    · simp [engineUp, hd, he, swallowNoChange]
    · have hstep : engineUp steps m =
          ({ version := maxVersion (steps.filter (fun v => m.version < v)), dirty := false }, none) := by
        simp [engineUp, hd, he]
      rw [hstep]
      simp only [swallowNoChange]
      set mv := maxVersion (steps.filter (fun v => m.version < v)) with hmv
      have hne : steps.filter (fun v => m.version < v) ≠ [] := by
        intro hnil; rw [hnil] at he; exact he rfl
      have hmem := maxVersion_mem _ hne
      have hmvgt : m.version < mv := of_decide_eq_true (List.mem_filter.mp hmem).2
      have hempty : steps.filter (fun v => mv < v) = [] := by
        rw [List.filter_eq_nil_iff]
        intro a ha hgt
        have hgt' : mv < a := of_decide_eq_true hgt
        have hmema : a ∈ steps.filter (fun v => m.version < v) :=
          List.mem_filter.mpr ⟨ha, decide_eq_true (lt_trans hmvgt hgt')⟩
        exact absurd (maxVersion_le _ a hmema) (not_le.mpr hgt')
      simp [engineUp, hempty, swallowNoChange]

/-! Claim theorems. -/

/-- C7: the configuration produced with no options applied has marker
table "schema_migrations", a lock timeout of 15 seconds, verbose off, and
neither migration source (no directory and no embedded bundle) set. -/
theorem c7_default_config :
    defaultConfig.table = "schema_migrations" ∧
    defaultConfig.lockTimeout = 15 * nsPerSecond ∧
    defaultConfig.verbose = false ∧
    defaultConfig.dir = "" ∧
    defaultConfig.useEmbed = false :=
  ⟨rfl, rfl, rfl, rfl, rfl⟩

/-- C9: for every non-empty migration source shorter than 7 bytes (hence
in particular different from "embed://"), the source-handling branch of
`NewConfig` evaluates `source[7:]`, which indexes past the end of the
string — a Go runtime panic, modelled as the error result of the slice. -/
theorem c9_newconfig_short_source_panics (source : String)
    (hne : source ≠ "") (hshort : source.utf8ByteSize < 7) :
    newConfigSource source defaultConfig = .error () := by
  have hs : source ≠ "embed://" := by
    intro h
    rw [h] at hshort
    have : ("embed://" : String).utf8ByteSize = 8 := by decide
    omega
  unfold newConfigSource goSliceFrom
  rw [if_neg hs, if_pos hne, if_neg (by omega)]

/-- C9 witness: the source "abc" is non-empty, shorter than 7 bytes, and
makes the modelled `NewConfig` source handling panic. -/
theorem c9_witness :
    ("abc" ≠ "" ∧ ("abc" : String).utf8ByteSize < 7) ∧
    newConfigSource "abc" defaultConfig = .error () :=
  ⟨⟨by decide, by decide⟩, c9_newconfig_short_source_panics "abc" (by decide) (by decide)⟩

/-- C1: with the marker at 0 and steps 1 and 2 resolved from the embedded
source, `GetStatus` does not return applied = [] and pending = [1, 2] as
the claim states: it calls `internal.GetStatus` with an empty source URL,
which the internal `NewRunner` rejects, so the whole call returns the
"source URL is required" error (and no code path ever fills `Pending`). -/
theorem c1_get_status_source_url_bug :
    GetStatus "postgres://db" [.withEmbed] wBase = .error .sourceURLRequired := rfl

/-- C10: `GetStatus` with an empty database URL returns
`ErrDatabaseURLRequired`; but with a database URL and no migration source
configured it does not return the marker-derived status the claim (and
the lenient-path comment in the source) describe: the
`getStatusWithoutSource` path also reaches `internal.GetStatus` with an
empty source URL and therefore errors. -/
theorem c10_get_status_dispatch :
    GetStatus "" [] wThree = .error .dbURLRequired ∧
    GetStatus "postgres://db" [] wThree = .error .sourceURLRequired :=
  ⟨rfl, rfl⟩

/-- Walk entries whose lexical and numeric orders differ. -/
def entsC6 : List WalkEntry :=
  [{ path := "10_b.sql", isDir := false }, { path := "2_a.sql", isDir := false }]

/-- C6 counterexample: on files 10_b.sql and 2_a.sql,
`getMigrationFiles` returns the lexical order [10_b.sql, 2_a.sql]
(`sort.Strings` on the path), while ascending parsed-version order is
[2_a.sql, 10_b.sql]; the two orders differ, refuting the claim that
resolution orders by the parsed version integer. -/
theorem c6_counterexample :
    getMigrationFiles entsC6 = ["10_b.sql", "2_a.sql"] ∧
    specVersionOrder (entsC6.map (fun e => e.path)) = ["2_a.sql", "10_b.sql"] ∧
    getMigrationFiles entsC6 ≠ specVersionOrder (entsC6.map (fun e => e.path)) := by
  refine ⟨by decide, by decide, ?_⟩
  intro h
  rw [show getMigrationFiles entsC6 = ["10_b.sql", "2_a.sql"] by decide,
    show specVersionOrder (entsC6.map (fun e => e.path)) = ["2_a.sql", "10_b.sql"] by decide] at h
  exact absurd (List.head_eq_of_cons_eq h) (by decide)

/-- C5 counterexample: the option list [WithAutoMigrate, WithTable("")]
yields a configuration with an empty marker-table name, yet the facade
operation returns `ErrNoMigrationSource` — not an `ErrInvalidConfig`-class
error — because `Validate` checks AutoMigrate-without-source before the
table-name check. -/
theorem c5_counterexample :
    (applyOpts defaultConfig [.withAutoMigrate, .withTable ""]).table = "" ∧
    (facadeOp .up "postgres://db" [.withAutoMigrate, .withTable ""] wBase).1 =
      some .noMigrationSource ∧
    isInvalidConfig .noMigrationSource = false :=
  ⟨rfl, rfl, rfl⟩

/-- C5 (amended): for every options list whose resulting configuration
has both source kinds set, an empty marker-table name, or a negative lock
timeout, every facade operation returns a validation error before any
database interaction (empty trace, world untouched); the error is
`ErrInvalidConfig` except when AutoMigrate is enabled with no source set,
in which case `Validate` returns `ErrNoMigrationSource` first. -/
theorem c5_validation_gates (k : OpKind) (dbURL : String) (opts : List MOpt) (w : World)
    (hbad : ((applyOpts defaultConfig opts).dir ≠ "" ∧
              (applyOpts defaultConfig opts).useEmbed = true) ∨
            (applyOpts defaultConfig opts).table = "" ∨
            (applyOpts defaultConfig opts).lockTimeout < 0) :
    ∃ e, facadeOp k dbURL opts w = (some e, w, []) ∧
      (isInvalidConfig e = true ∨ e = .noMigrationSource) ∧
      (e = .noMigrationSource →
        (applyOpts defaultConfig opts).autoMigrate = true ∧
        (applyOpts defaultConfig opts).dir = "" ∧
        (applyOpts defaultConfig opts).useEmbed = false) := by
  obtain ⟨e, hval, hclass, himp⟩ := validate_of_bad _ hbad
  exact ⟨e, by simp [facadeOp, facadeOpCfg, hval], hclass, himp⟩

/-- C5 witness: the amended theorem applied to `Up` with the option list
[WithTable("")] on a concrete world. -/
theorem c5_witness :
    ∃ e, facadeOp .up "postgres://db" [.withTable ""] wBase = (some e, wBase, []) ∧
      (isInvalidConfig e = true ∨ e = .noMigrationSource) ∧
      (e = .noMigrationSource →
        (applyOpts defaultConfig [.withTable ""]).autoMigrate = true ∧
        (applyOpts defaultConfig [.withTable ""]).dir = "" ∧
        (applyOpts defaultConfig [.withTable ""]).useEmbed = false) :=
  c5_validation_gates .up "postgres://db" [.withTable ""] wBase (Or.inr (Or.inl (by decide)))

/-- C2: once the configuration validates and the runner is created, a
dirty marker makes each of Up, Down, Steps and To return the dirty-state
error class without modifying any marker, while Force succeeds and leaves
the marker of the runner's table at the forced version, clean. -/
theorem c2_dirty_state_gating (dbURL : String) (opts : List MOpt) (w : World)
    (inst : MigrateInstance) (n : Int) (v fv : Nat)
    (hval : (applyOpts defaultConfig opts).validate = none)
    (hcr : createRunner dbURL (applyOpts defaultConfig opts) w = .ok inst)
    (hd : (w.markers inst.table).dirty = true) :
    (∀ k, (k = OpKind.up ∨ k = OpKind.down ∨ k = OpKind.steps n ∨ k = OpKind.to v) →
      (facadeOp k dbURL opts w).1 = some (.dirtyState (w.markers inst.table).version) ∧
      ∀ t, ((facadeOp k dbURL opts w).2.1).markers t = w.markers t) ∧
    (facadeOp (.force fv) dbURL opts w).1 = none ∧
    ((facadeOp (.force fv) dbURL opts w).2.1).markers inst.table =
      { version := fv, dirty := false } := by
  have hops : ∀ k, (k = OpKind.up ∨ k = OpKind.down ∨ k = OpKind.steps n ∨ k = OpKind.to v) →
      runnerOp k (w.resolve inst.source) (w.markers inst.table) =
        (w.markers inst.table, some (.dirtyState (w.markers inst.table).version)) := by
    rintro k (rfl | rfl | rfl | rfl) <;>
      simp [runnerOp, engineUp, engineDown, engineSteps, engineTo, hd, swallowNoChange]
  refine ⟨?_, ?_, ?_⟩
  · intro k hk
    have hop := hops k hk
    constructor
    · simp [facadeOp, facadeOpCfg, hval, hcr, runRunnerOp, hop]
    · intro t
      simp only [facadeOp, facadeOpCfg, hval, hcr, runRunnerOp, hop]
      by_cases ht : t = inst.table <;> simp [ht]
  · simp [facadeOp, facadeOpCfg, hval, hcr, runRunnerOp, runnerOp, engineForce]
  · simp [facadeOp, facadeOpCfg, hval, hcr, runRunnerOp, runnerOp, engineForce]

/-- C2 witness: on a world whose marker is dirty at version 3 with the
embedded source, Up returns the dirty-state error and Force(7) succeeds. -/
theorem c2_witness :
    (facadeOp .up "postgres://db" [.withEmbed] wDirty).1 = some (.dirtyState 3) ∧
    (facadeOp (.force 7) "postgres://db" [.withEmbed] wDirty).1 = none := by
  have h := c2_dirty_state_gating "postgres://db" [.withEmbed] wDirty instEmbed 0 0 7
    (by decide) rfl (by decide)
  exact ⟨(h.1 .up (Or.inl rfl)).1, h.2.1⟩

/-- C4: once the runner has been created (validation passed and
`createRunner` returned an instance), every facade operation's interaction
trace ends with — and in particular contains — the runner close, whichever
operation ran and whether it failed or succeeded. -/
theorem c4_close_on_every_exit (k : OpKind) (dbURL : String) (opts : List MOpt) (w : World)
    (inst : MigrateInstance)
    (hval : (applyOpts defaultConfig opts).validate = none)
    (hcr : createRunner dbURL (applyOpts defaultConfig opts) w = .ok inst) :
    Event.close ∈ (facadeOp k dbURL opts w).2.2 ∧
    (facadeOp k dbURL opts w).2.2.getLast? = some Event.close := by
  simp only [facadeOp, facadeOpCfg, hval, hcr]
  rcases hres : (runRunnerOp k inst w).2 with _ | e <;> simp [hres]

/-- C4 witness: the theorem applied to `Drop` on a concrete world with the
embedded source. -/
theorem c4_witness :
    Event.close ∈ (facadeOp .drop "postgres://db" [.withEmbed] wBase).2.2 ∧
    (facadeOp .drop "postgres://db" [.withEmbed] wBase).2.2.getLast? = some Event.close :=
  c4_close_on_every_exit .drop "postgres://db" [.withEmbed] wBase instEmbed
    (by decide) rfl

theorem facadeOp_reduce (k : OpKind) (dbURL : String) (opts : List MOpt) (w : World)
    (inst : MigrateInstance)
    (hval : (applyOpts defaultConfig opts).validate = none)
    (hcr : createRunner dbURL (applyOpts defaultConfig opts) w = .ok inst) :
    facadeOp k dbURL opts w =
      ((runRunnerOp k inst w).2, (runRunnerOp k inst w).1,
        [Event.dbConnect, Event.opRun, Event.close]) := by
  simp only [facadeOp, facadeOpCfg, hval, hcr]
  rcases hres : (runRunnerOp k inst w).2 with _ | e <;> simp [hres]

/-- C3 counterexample: starting from the empty marker with steps 1 and 2,
a first apply-all succeeds and moves the marker to 2; the second
consecutive apply-all returns a nil error — not a `NoChangeError`-class
value: `IsNoChange` is false for it, contradicting the claim — while the
marker is unchanged. -/
theorem c3_counterexample :
    (facadeOp .up "postgres://db" [.withEmbed] wBase).1 = none ∧
    ((facadeOp .up "postgres://db" [.withEmbed] wBase).2.1).markers "schema_migrations" =
      { version := 2, dirty := false } ∧
    (facadeOp .up "postgres://db" [.withEmbed]
      ((facadeOp .up "postgres://db" [.withEmbed] wBase).2.1)).1 = none ∧
    IsNoChange (facadeOp .up "postgres://db" [.withEmbed]
      ((facadeOp .up "postgres://db" [.withEmbed] wBase).2.1)).1 = false ∧
    ((facadeOp .up "postgres://db" [.withEmbed]
      ((facadeOp .up "postgres://db" [.withEmbed] wBase).2.1)).2.1).markers "schema_migrations" =
      { version := 2, dirty := false } := by
  exact ⟨rfl, rfl, rfl, rfl, rfl⟩

/-- C3 (amended): when an apply-all call succeeds (returns a nil error),
the immediately following apply-all call also returns a nil error — the
runner converts the engine's no-change result into success before it
reaches the caller, so `IsNoChange` does not hold of the returned value —
and no marker changes. -/
theorem c3_idempotent_apply (dbURL : String) (opts : List MOpt) (w : World)
    (h : (facadeOp .up dbURL opts w).1 = none) :
    (facadeOp .up dbURL opts ((facadeOp .up dbURL opts w).2.1)).1 = none ∧
    IsNoChange (facadeOp .up dbURL opts ((facadeOp .up dbURL opts w).2.1)).1 = false ∧
    ∀ t, ((facadeOp .up dbURL opts ((facadeOp .up dbURL opts w).2.1)).2.1).markers t =
      ((facadeOp .up dbURL opts w).2.1).markers t := by
  cases hval : (applyOpts defaultConfig opts).validate with
  | some e => simp [facadeOp, facadeOpCfg, hval] at h
  | none =>
  cases hcr : createRunner dbURL (applyOpts defaultConfig opts) w with
  | error e => simp [facadeOp, facadeOpCfg, hval, hcr] at h
  | ok inst =>
  cases hr : (runRunnerOp .up inst w).2 with
  | some e => simp [facadeOp, facadeOpCfg, hval, hcr, hr] at h
  | none =>
  have hr' : (swallowNoChange (engineUp (w.resolve inst.source) (w.markers inst.table))).2 =
      none := hr
  have hfix := engineUp_fixed (w.resolve inst.source) (w.markers inst.table) hr'
  have hcr1 : createRunner dbURL (applyOpts defaultConfig opts)
      ((runRunnerOp .up inst w).1) = .ok inst := by
    show createRunner dbURL (applyOpts defaultConfig opts)
      { w with markers := fun t => if t = inst.table
          then (runnerOp .up (w.resolve inst.source) (w.markers inst.table)).1
          else w.markers t } = .ok inst
    rw [createRunner_markers_irrel]
    exact hcr
  rw [facadeOp_reduce .up dbURL opts w inst hval hcr,
    facadeOp_reduce .up dbURL opts ((runRunnerOp .up inst w).1) inst hval hcr1]
  have hm1 : ((runRunnerOp .up inst w).1).markers inst.table =
      (swallowNoChange (engineUp (w.resolve inst.source) (w.markers inst.table))).1 := by
    simp [runRunnerOp, runnerOp]
  have h2 : runnerOp .up (w.resolve inst.source)
      (((runRunnerOp .up inst w).1).markers inst.table) =
      ((swallowNoChange (engineUp (w.resolve inst.source) (w.markers inst.table))).1, none) := by
    rw [hm1]
    exact hfix
  refine ⟨?_, ?_, ?_⟩
  · show (runnerOp .up (w.resolve inst.source)
      (((runRunnerOp .up inst w).1).markers inst.table)).2 = none
    rw [h2]
  · show IsNoChange (runnerOp .up (w.resolve inst.source)
      (((runRunnerOp .up inst w).1).markers inst.table)).2 = false
    rw [h2]
    rfl
  · intro t
    show (if t = inst.table
        then (runnerOp .up (w.resolve inst.source)
          (((runRunnerOp .up inst w).1).markers inst.table)).1
        else ((runRunnerOp .up inst w).1).markers t) =
      ((runRunnerOp .up inst w).1).markers t
    rw [h2]
    by_cases ht : t = inst.table
    · subst ht
      rw [if_pos rfl, hm1]
    · rw [if_neg ht]

/-- C3 witness: the amended theorem applied to a world already at version
3 with steps 1 and 2 (first apply-all is already a success). -/
theorem c3_witness :
    (facadeOp .up "postgres://db" [.withEmbed]
      ((facadeOp .up "postgres://db" [.withEmbed] wThree).2.1)).1 = none ∧
    IsNoChange (facadeOp .up "postgres://db" [.withEmbed]
      ((facadeOp .up "postgres://db" [.withEmbed] wThree).2.1)).1 = false ∧
    ∀ t, ((facadeOp .up "postgres://db" [.withEmbed]
      ((facadeOp .up "postgres://db" [.withEmbed] wThree).2.1)).2.1).markers t =
      ((facadeOp .up "postgres://db" [.withEmbed] wThree).2.1).markers t :=
  c3_idempotent_apply "postgres://db" [.withEmbed] wThree rfl

/-- C8: two valid configurations that differ only in the lock timeout —
or, when the source is a filesystem directory, only in the lock timeout
and the marker-table name — produce the same migrate instance from
`createRunner` (neither field is forwarded to the instance) and therefore
every facade operation behaves identically under them. -/
theorem c8_noninterference (dbURL : String) (cfg1 cfg2 : Config) (t2 : Int) (tb2 : String)
    (hv1 : cfg1.validate = none) (hv2 : cfg2.validate = none)
    (hdiff : cfg2 = { cfg1 with lockTimeout := t2 } ∨
             (cfg1.useEmbed = false ∧ cfg2 = { cfg1 with lockTimeout := t2, table := tb2 })) :
    (∀ w, createRunner dbURL cfg1 w = createRunner dbURL cfg2 w) ∧
    (∀ k w, facadeOpCfg k dbURL cfg1 w = facadeOpCfg k dbURL cfg2 w) := by
  have hcr : ∀ w, createRunner dbURL cfg1 w = createRunner dbURL cfg2 w := by
    intro w
    rcases hdiff with rfl | ⟨hemb, rfl⟩
    · rfl
    · simp [createRunner, hemb, NewRunner, newFileSourceURL]
  refine ⟨hcr, ?_⟩
  intro k w
  simp only [facadeOpCfg, hv1, hv2, hcr w]

/-- C8 witness: the embedded-source configuration and the same
configuration with a 30-second lock timeout make `Up` behave
identically. -/
theorem c8_witness :
    facadeOpCfg .up "postgres://db" (applyOpts defaultConfig [.withEmbed]) wBase =
    facadeOpCfg .up "postgres://db"
      { applyOpts defaultConfig [.withEmbed] with lockTimeout := 30 * nsPerSecond } wBase := by
  have h := c8_noninterference "postgres://db"
    (applyOpts defaultConfig [.withEmbed])
    { applyOpts defaultConfig [.withEmbed] with lockTimeout := 30 * nsPerSecond }
    (30 * nsPerSecond) "unused" (by decide) (by decide) (Or.inl rfl)
  exact h.2 .up wBase

/-- C6 (amended): `getMigrationFiles` orders the collected migration files
by ascending lexical string order of the full path (the effect of
`sort.Strings`), and its output is a permutation of exactly the
non-directory `.sql` entries of the walk; resolution is a pure function of
the walked entries, hence repeatable. -/
theorem c6_lexical_order (entries : List WalkEntry) :
    List.Sorted (fun a b => strLe a b = true) (getMigrationFiles entries) ∧
    (getMigrationFiles entries).Perm
      ((entries.filter (fun e => !e.isDir && isSqlFile e.path)).map (fun e => e.path)) := by
  constructor
  · haveI : IsTrans String (fun a b => strLe a b = true) := ⟨fun a b c => strLe_trans a b c⟩
    haveI : IsTotal String (fun a b => strLe a b = true) := ⟨fun a b => by
      rcases charsLe_total a.data b.data with h | h
      · exact Or.inl h
      · exact Or.inr h⟩
    exact List.sorted_insertionSort _ _
  · exact List.perm_insertionSort _ _

end Dbx
